import Mathlib

/-!
Verification of the casing-string design calculator (CasingCalcMain.py).

The Python program is embedded shallowly:
* numeric values (Python floats) are idealised as exact rationals `ℚ`;
  the only irrational constant, `math.pi` (used in the buoyed-tension steel
  area), forces those two definitions into `ℝ`;
* a design factor is either a finite ratio or the positive-infinity
  sentinel float-inf; this two-case shape is the inductive `DF`;
* Python code that can raise `ZeroDivisionError` is embedded as an
  `Option`-valued function returning `none` on the raising input;
* the `sections` dictionaries (keyed `0..n-1`, re-sorted and re-indexed
  after each insertion) are embedded as Lean lists in dictionary order;
  the stable Python builtin sort is `List.insertionSort` (also stable);
* the label re-keying loop of `create_variables` works on an ordered
  association list mirroring the insertion-order semantics of a
  Python `dict` (`pop` removes an entry, assignment of a fresh key
  appends, assignment of a present key updates in place).

Definitions keep the Python names.  Functions named `..._spec` are NOT
taken from the code: they transcribe the wording of the specification and are
compared against the code-derived definitions in refinement theorems.
-/

namespace CasingCalc

/-- A Python float that is either a finite value or the infinity sentinel:
the shape taken by every design factor in the program. -/
inductive DF (α : Type) where
  | val (x : α) : DF α
  | inf : DF α
deriving DecidableEq

/-- The per-section fields consumed by the inter-section burst analyzer
(`calculate_maps`, `calculate_burst_load`, `calculateSoloMapsBurstLoadDF`).
The remaining dictionary keys are irrelevant to those functions. -/
structure Sec where
  mud_weight : ℚ
  backup_mud : ℚ
  tvd : ℚ
  frac_init_pressure : ℚ
  int_gradient : ℚ
  burst_strength : ℚ
deriving DecidableEq

/-- `calculate_maps` (CasingCalcMain.py lines 121-127): bottom-hole pressure of
the mud column of the lower section less the internal-gradient loss over the
depth gap between the two shoes. -/
def calculate_maps (sec1 sec2 : Sec) : ℚ :=
  let next_bhp := sec2.mud_weight * sec2.tvd * 0.05194806
  next_bhp - (sec2.tvd - sec1.tvd) * sec2.int_gradient

/-- `calculate_burst_load` (lines 178-192), including the structurally-zero
`(tvd - tvd)` depth-differential terms exactly as written in the source. -/
def calculate_burst_load (sec1 sec2 : Sec) (maps : ℚ) : ℚ :=
  let part1 := 0.05194806 * (sec1.mud_weight - sec1.backup_mud) * sec1.tvd
  let minPart1 := sec1.frac_init_pressure - (sec1.tvd - sec1.tvd) * sec2.int_gradient -
    (0.05194806 * sec1.backup_mud * sec1.tvd)
  let minPart2 := maps - sec1.int_gradient * (sec1.tvd - sec1.tvd) -
    (0.05194806 * sec1.backup_mud * sec1.tvd)
  max part1 (min minPart1 minPart2)

/-- The `maps`/`burst_load`/`burst_df` triple that both the solo path and the
adjacent-pair path of `calcParametersContained` merge into a section. -/
structure BurstResult where
  maps : ℚ
  burst_load : ℚ
  burst_df : DF ℚ
deriving DecidableEq

/-- `calculateSoloMapsBurstLoadDF` (lines 57-77): standalone analysis of a
section with no deeper neighbour.  The local `maps` is the own
mud hydrostatic of the section; the burst load repeats the three-way max of
`calculate_burst_load` with the own fracture pressure of the section, again with
the literal `int_gradient * (tvd - tvd)` term of the source. -/
def calculateSoloMapsBurstLoadDF (section_ : Sec) : BurstResult :=
  let maps := section_.mud_weight * section_.tvd * 0.05194806
  let burst_load := max
    (0.05194806 * (section_.mud_weight - section_.backup_mud) * section_.tvd)
    (min
      (section_.frac_init_pressure - (0.05194806 * section_.backup_mud * section_.tvd))
      (maps - section_.int_gradient * (section_.tvd - section_.tvd) -
        (0.05194806 * section_.backup_mud * section_.tvd)))
  let burst_df : DF ℚ :=
    if 0 < burst_load then DF.val (section_.burst_strength / burst_load) else DF.inf
  { maps := maps, burst_load := burst_load, burst_df := burst_df }

/-- The adjacent-pair branch of `calcParametersContained` (lines 578-598):
maps and burst load from the analyzer, burst design factor with the
`burst_load > 0` guard. -/
def interSectionMapsBurstLoadDF (sec1 sec2 : Sec) : BurstResult :=
  let maps := calculate_maps sec1 sec2
  let burst_load := calculate_burst_load sec1 sec2 maps
  let burst_df : DF ℚ :=
    if 0 < burst_load then DF.val (sec1.burst_strength / burst_load) else DF.inf
  { maps := maps, burst_load := burst_load, burst_df := burst_df }

/-- Spec wording (§4.3): `computeMAPS(upper, lower) =
lower.mud_weight × lower.tvd × 0.05194806 − (lower.tvd − upper.tvd) × lower.int_gradient`. -/
def maps_spec (upper lower : Sec) : ℚ :=
  lower.mud_weight * lower.tvd * 0.05194806 - (lower.tvd - upper.tvd) * lower.int_gradient

/-- Spec wording (§4.3): the three-way burst-load pattern
`max(differential_mud_pressure, min(fracture_ceiling, maps_ceiling))`, written
WITHOUT the structurally-zero depth-differential terms. -/
def burst_load_spec (mud_weight backup_mud tvd frac_init_pressure maps : ℚ) : ℚ :=
  let differential_mud_pressure := 0.05194806 * (mud_weight - backup_mud) * tvd
  let fracture_ceiling := frac_init_pressure - 0.05194806 * backup_mud * tvd
  let maps_ceiling := maps - 0.05194806 * backup_mud * tvd
  max differential_mud_pressure (min fracture_ceiling maps_ceiling)

/-- The raw per-section record consumed by `CasingDataCalc.__init__`
(lines 727-773).  Field names follow the `add_section_with_properties`
keyword names; the string-valued fields (`grade`, `connection`,
`casing_type`) play no role in any computation and are omitted. -/
structure Casing where
  tvd : ℚ
  washout : ℚ
  int_gradient : ℚ
  mud_weight : ℚ
  backup_mud : ℚ
  cement_cu_ft : ℚ
  hole_size : ℚ
  bottom : ℚ
  top : ℚ
  weight : ℚ
  od : ℚ
  body_yield : ℚ
  burst_strength : ℚ
  wall_thickness : ℚ
  csg_internal_diameter : ℚ
  collapse_pressure : ℚ
  tension_strength : ℚ
deriving DecidableEq

/-- The well-wide parameters passed to `CasingDataCalc` as `univ_params`
(lines 559-564). -/
structure UnivParams where
  max_md_depth : ℚ
  max_tvd_depth : ℚ
  tol : ℚ
  frac_gradient : ℚ
deriving DecidableEq

/-- `CasingDataCalc.calculate_collapse_load` (lines 1038-1073): external mud
pressure at the shoe minus the zero internal pressure of an empty casing. -/
def calculate_collapse_load (c : Casing) : ℚ :=
  let external_pressure := c.bottom * c.mud_weight * 0.052
  let internal_pressure : ℚ := 0
  external_pressure - internal_pressure

/-- `CasingDataCalc.calculate_collapse_df` (lines 1076-1108): rated collapse
strength over collapse load, the infinity sentinel when the load is 0 (the guard
is `!= 0`, not `> 0`). -/
def calculate_collapse_df (c : Casing) : DF ℚ :=
  if calculate_collapse_load c ≠ 0 then
    DF.val (c.collapse_pressure / calculate_collapse_load c)
  else DF.inf

/-- `CasingDataCalc.calculate_cement_height` (lines 910-952).  The Python
body divides by the washout-adjusted annular volume per foot; when that
divisor is zero the division raises `ZeroDivisionError`, embedded here as
`none`.  The `else` branch returns 0 whenever `od ≤ 0`. -/
def calculate_cement_height (c : Casing) : Option ℚ :=
  if 0 < c.od then
    let effective_hole_size := c.hole_size * (1 + c.washout / 100)
    let annular_volume_per_foot := (effective_hole_size ^ 2 - c.od ^ 2) / 183.35
    if annular_volume_per_foot = 0 then none
    else some (1 / annular_volume_per_foot * c.cement_cu_ft)
  else some 0

/-- `CasingDataCalc.calculate_tension_air` (lines 1181-1221): casing weight
times set depth (in kips); at `set_depth == max_md_depth` the depth is
replaced by `abs(set_depth - tol)`. -/
def calculate_tension_air (c : Casing) (u : UnivParams) : ℚ :=
  let total_weight :=
    if c.bottom = u.max_md_depth then c.weight * |c.bottom - u.tol|
    else c.weight * c.bottom
  total_weight / 1000

/-- `CasingDataCalc.calculate_tension_buoyed` (lines 1223-1271): buoyed
tension in kips; `result1` is the steel cross-section (with `math.pi`,
hence `ℝ`), `result2` the buoyancy pressure term, `result3` the air
weight, with the `set_depth == max_md_depth` exceptions of the source. -/
noncomputable def calculate_tension_buoyed (c : Casing) (u : UnivParams) : ℝ :=
  let result1 : ℝ := Real.pi / 4 * ((c.od : ℝ) ^ 2 - (c.csg_internal_diameter : ℝ) ^ 2)
  let result2 : ℝ :=
    if c.bottom = u.max_md_depth then
      0.05194806 * (c.mud_weight : ℝ) * |(c.tvd : ℝ) - (u.max_tvd_depth : ℝ)|
    else 0.05194806 * (c.mud_weight : ℝ) * (c.tvd : ℝ)
  let result3 : ℝ :=
    if c.bottom = u.max_md_depth then (c.weight : ℝ) * |(c.bottom : ℝ) - (u.tol : ℝ)|
    else (c.weight : ℝ) * (c.bottom : ℝ)
  (result3 - result2 * result1) / 1000

/-- `CasingDataCalc.calculate_tension_df` (lines 1274-1315): rated tension
strength over buoyed tension, the infinity sentinel when the buoyed tension is 0
(the guard is `== 0`, so a negative buoyed tension yields a finite ratio). -/
noncomputable def calculate_tension_df (c : Casing) (u : UnivParams) : DF ℝ :=
  if calculate_tension_buoyed c u = 0 then DF.inf
  else DF.val ((c.tension_strength : ℝ) / calculate_tension_buoyed c u)

/-- Spec wording (§4.2): tension-air is `csg_weight × set_depth / 1000`,
except at `set_depth == max_md_depth` where `abs(set_depth − tol)` replaces
`set_depth`. -/
def tension_air_spec (c : Casing) (u : UnivParams) : ℚ :=
  if c.bottom = u.max_md_depth then c.weight * |c.bottom - u.tol| / 1000
  else c.weight * c.bottom / 1000

/-- Spec wording (§4.2): steel area `π/4 × (od² − id²)`. -/
noncomputable def steel_area_spec (c : Casing) : ℝ :=
  Real.pi / 4 * ((c.od : ℝ) ^ 2 - (c.csg_internal_diameter : ℝ) ^ 2)

/-- Spec wording (§4.2): buoyancy term `0.05194806 × mud_weight × tvd`,
except at `set_depth == max_md_depth` where it is
`0.05194806 × mud_weight × abs(tvd − max_tvd_depth)`. -/
noncomputable def buoyancy_term_spec (c : Casing) (u : UnivParams) : ℝ :=
  if c.bottom = u.max_md_depth then
    0.05194806 * (c.mud_weight : ℝ) * |(c.tvd : ℝ) - (u.max_tvd_depth : ℝ)|
  else 0.05194806 * (c.mud_weight : ℝ) * (c.tvd : ℝ)

/-- Spec wording (§4.2): weight term mirroring the tension-air exception
rule. -/
noncomputable def weight_term_spec (c : Casing) (u : UnivParams) : ℝ :=
  if c.bottom = u.max_md_depth then (c.weight : ℝ) * |(c.bottom : ℝ) - (u.tol : ℝ)|
  else (c.weight : ℝ) * (c.bottom : ℝ)

/-- Spec wording (§4.2): tension-buoyed
`(weight_term − buoyancy_term × steel_area) / 1000`. -/
noncomputable def tension_buoyed_spec (c : Casing) (u : UnivParams) : ℝ :=
  (weight_term_spec c u - buoyancy_term_spec c u * steel_area_spec c) / 1000

/-- The well bounds used by the two insertion strategies of
`WellBoreExpanded` (`self.top`, `self.bottom`). -/
structure Well where
  top : ℚ
  bottom : ℚ
deriving DecidableEq

/-- A staged section as seen by `add_section_top_down_new`: the entry of the
`self.sections` dictionary projected to the keys that the method itself
reads or writes (`top`, `bottom`).  The remaining kwargs are copied
verbatim and never consulted by the assembler. -/
structure TDSec where
  top : ℚ
  bottom : ℚ
deriving DecidableEq

/-- The caller-supplied fields of one top-down `addSection` call that the
assembler consults: only `bottom` (the required field; `top` is not among
the required parameters and is not passed by `main`). -/
structure RawTD where
  bottom : ℚ
deriving DecidableEq

/-- State of the top-down assembler: `self.sections` in dictionary order
(keys `0..n-1` after re-indexing) and the `self.complete` flag. -/
structure TDState where
  sections : List TDSec
  complete : Bool
deriving DecidableEq

/-- Comparison used by the ascending sort over the `top` values (line 408). -/
def tdByTop (a b : TDSec) : Prop := a.top ≤ b.top

instance : DecidableRel tdByTop := fun a b => inferInstanceAs (Decidable (a.top ≤ b.top))

instance : IsTotal TDSec tdByTop := ⟨fun a b => le_total a.top b.top⟩

instance : IsTrans TDSec tdByTop := ⟨fun _ _ _ h h2 => le_trans h h2⟩

/-- Bottom depth of the last (highest-index) section of the dictionary, the
value the completion test of line 421 compares against the well bottom. -/
def lastBottomTD (l : List TDSec) : Option ℚ := l.getLast?.map TDSec.bottom

/-- `WellBoreExpanded.add_section_top_down_new` (lines 365-425): derive the
top of the new section (well top when empty, else the bottom of the section at
the last index), append, stable-sort ascending by `top`, re-index, and set
`complete` when the bottom of the last section equals the well bottom
(`complete` is only ever set, never cleared). -/
def add_section_top_down_new (w : Well) (s : TDState) (r : RawTD) : TDState :=
  let top :=
    match s.sections.getLast? with
    | none => w.top
    | some prev => prev.bottom
  let inserted := s.sections ++ [{ top := top, bottom := r.bottom }]
  let sorted := inserted.insertionSort tdByTop
  let complete := s.complete || decide (lastBottomTD sorted = some w.bottom)
  { sections := sorted, complete := complete }

/-- The section record `add_section_top_down_new` inserts for a given well,
prior state and raw call. -/
def newTDSec (w : Well) (s : TDState) (r : RawTD) : TDSec :=
  { top := match s.sections.getLast? with
           | none => w.top
           | some prev => prev.bottom
    bottom := r.bottom }

/-- A whole top-down build: start from an empty, incomplete wellbore and
fold `addSection` over the list of raw calls. -/
def buildTD (w : Well) (rs : List RawTD) : TDState :=
  rs.foldl (add_section_top_down_new w) { sections := [], complete := false }

/-- A staged section as seen by `add_section_bottom_up_new`: `top`,
`bottom`, and the optional measured-depth pair consulted for positioning
and sorting. -/
structure BUSec where
  top : ℚ
  bottom : ℚ
  md_top : Option ℚ
  md_bottom : Option ℚ
deriving DecidableEq

/-- The caller-supplied fields of one bottom-up `addSection` call that the
assembler consults: the required `bottom` plus the optional `length`,
`top`, `md_top`, `md_bottom` kwargs. -/
structure RawBU where
  bottom : ℚ
  length : Option ℚ
  top : Option ℚ
  md_top : Option ℚ
  md_bottom : Option ℚ
deriving DecidableEq

/-- State of the bottom-up assembler. -/
structure BUState where
  sections : List BUSec
  complete : Bool
deriving DecidableEq

/-- Sort key of the reversed sort of line 486: `md_bottom` when present,
else `bottom`. -/
def buSortKey (a : BUSec) : ℚ := a.md_bottom.getD a.bottom

/-- Descending comparison on `buSortKey` (the `reverse=True` sort). -/
def buByKeyDesc (a b : BUSec) : Prop := buSortKey b ≤ buSortKey a

instance : DecidableRel buByKeyDesc := fun a b =>
  inferInstanceAs (Decidable (buSortKey b ≤ buSortKey a))

instance : IsTotal BUSec buByKeyDesc := ⟨fun a b => le_total (buSortKey b) (buSortKey a)⟩

instance : IsTrans BUSec buByKeyDesc := ⟨fun _ _ _ h h2 => le_trans h2 h⟩

/-- Top depth of the section at index 0, the value the completion test of
line 501 compares against the well top. -/
def headTopBU (l : List BUSec) : Option ℚ := l.head?.map BUSec.top

/-- The positioning bottom of line 462-467: well bottom when no section is
staged, else the `md_top` of the index-0 section when present, else its
`top` (line 467). -/
def derivedBottomBU (w : Well) (s : BUState) : ℚ :=
  match s.sections.head? with
  | none => w.bottom
  | some sec0 => sec0.md_top.getD sec0.top

/-- The section record `add_section_bottom_up_new` inserts: the dict is
created with the derived positioning `top` and `bottom` keys
values and then overwritten by the kwargs loop, so the stored `bottom` is
always the required `bottom` of the caller and a caller-supplied `top` replaces
the derived one. -/
def newBUSec (w : Well) (s : BUState) (r : RawBU) : BUSec :=
  let bottom := derivedBottomBU w s
  let top :=
    match r.length with
    | some len => max (bottom - len) w.top
    | none =>
      match r.top with
      | some t => t
      | none => w.top
  { top := (r.top).getD top
    bottom := r.bottom
    md_top := r.md_top
    md_bottom := r.md_bottom }

/-- `WellBoreExpanded.add_section_bottom_up_new` (lines 427-505): create the
new section, append, stable-sort descending by `md_bottom`-else-`bottom`,
re-index, and set `complete` when the top of the index-0 section equals the
well top (again sticky). -/
def add_section_bottom_up_new (w : Well) (s : BUState) (r : RawBU) : BUState :=
  let inserted := s.sections ++ [newBUSec w s r]
  let sorted := inserted.insertionSort buByKeyDesc
  let complete := s.complete || decide (headTopBU sorted = some w.top)
  { sections := sorted, complete := complete }

/-- A whole bottom-up build from the empty, incomplete wellbore. -/
def buildBU (w : Well) (rs : List RawBU) : BUState :=
  rs.foldl (add_section_bottom_up_new w) { sections := [], complete := false }

/-- A key of the `self.sections` dictionary: positional `int` keys before
re-keying, casing-type labels afterwards. -/
inductive SecKey where
  | idx (n : ℕ) : SecKey
  | label (s : String) : SecKey
deriving DecidableEq

/-- `dict.get`-style lookup on an ordered association list. -/
def dictGet {V : Type} (d : List (SecKey × V)) (k : SecKey) : Option V :=
  (d.find? fun p => p.1 == k).map Prod.snd

/-- The removal effect of `dict.pop`: drop the (unique) entry with the key. -/
def dictErase {V : Type} (d : List (SecKey × V)) (k : SecKey) : List (SecKey × V) :=
  d.eraseP fun p => p.1 == k

/-- `d[k] = v` on a Python dict: update in place when the key is present,
append at the end of the insertion order otherwise. -/
def dictSet {V : Type} (d : List (SecKey × V)) (k : SecKey) (v : V) : List (SecKey × V) :=
  if d.any (fun p => p.1 == k) then
    d.map fun p => if p.1 == k then (k, v) else p
  else d ++ [(k, v)]

/-- One iteration of the `create_variables` loop:
`self.sections[variables[i]] = self.sections.pop(i)`.  A `pop` of an
absent key (never reached from the orchestrator, which always passes a
dict keyed `0..n-1` and one label per section) is embedded as a no-op. -/
def create_variables_step {V : Type} (d : List (SecKey × V)) (iv : ℕ × String) :
    List (SecKey × V) :=
  match dictGet d (SecKey.idx iv.1) with
  | some v => dictSet (dictErase d (SecKey.idx iv.1)) (SecKey.label iv.2) v
  | none => d

/-- `WellBoreExpanded.create_variables` (lines 617-649):
`for i in range(len(variables)): self.sections[variables[i]] = self.sections.pop(i)`. -/
def create_variables {V : Type} (labels : List String)
    (sections : List (SecKey × V)) : List (SecKey × V) :=
  labels.enum.foldl create_variables_step sections

/-- The positional dictionary `{k : section for k in 0..n-1}` holding the
given values, starting at index `k`. -/
def idxDict {V : Type} : ℕ → List V → List (SecKey × V)
  | _, [] => []
  | k, v :: vs => (SecKey.idx k, v) :: idxDict (k + 1) vs

/-- The label-keyed dictionary the re-keying is meant to produce. -/
def labelDict {V : Type} (labels : List String) (secs : List V) : List (SecKey × V) :=
  (labels.zip secs).map fun p => (SecKey.label p.1, p.2)

/-- C5: `computeMAPS(upper, lower)` returns
`lower.mud_weight × lower.tvd × 0.05194806 − (lower.tvd − upper.tvd) × lower.int_gradient`,
and on `upper.tvd = 5000`, `lower.mud_weight = 15.0`, `lower.tvd = 10000`,
`lower.int_gradient = 0.1` the result is within 0.1 of 7292.2 psi
(exact value 7292.209). -/
theorem calculate_maps_spec_and_example :
    (∀ upper lower : Sec, calculate_maps upper lower = maps_spec upper lower) ∧
    |calculate_maps ⟨0, 0, 5000, 0, 0, 0⟩ ⟨15, 0, 10000, 0, 0.1, 0⟩ - 7292.2| ≤ 0.1 := by
  constructor
  · intro upper lower; rfl
  · norm_num [calculate_maps, abs_le]

/-- C6: `computeBurstLoad(upper, lower, maps)` equals
`max(differential_mud_pressure, min(fracture_ceiling, maps_ceiling))` with
the formulas of the specification; the depth-differential terms of the
source multiply the structurally-zero difference `tvd − tvd` and contribute
nothing (in particular the result does not depend on `lower` at all). -/
theorem calculate_burst_load_eq_spec :
    ∀ (sec1 sec2 : Sec) (maps : ℚ),
      calculate_burst_load sec1 sec2 maps =
        burst_load_spec sec1.mud_weight sec1.backup_mud sec1.tvd
          sec1.frac_init_pressure maps := by
  intro sec1 sec2 maps
  simp [calculate_burst_load, burst_load_spec]

/-- C7: `computeSolo` returns `maps = mud_weight × tvd × 0.05194806`, a burst
load equal to the three-way max pattern of `computeBurstLoad` applied to
the own fracture pressure of the section and this local maps, and
`burst_df = burst_strength / burst_load` when `burst_load > 0`, else the
infinity sentinel; on the example section (`mud_weight 15.0`, `backup_mud
8.6`, `tvd 10000`, `frac_init_pressure 8000`, `int_gradient 0.1`,
`burst_strength 10000`) the maps is within 0.01 of 7792.21 (exact value
7792.209) and the burst design factor is finite. -/
theorem calculateSolo_spec_and_example :
    (∀ s : Sec, (calculateSoloMapsBurstLoadDF s).maps =
      s.mud_weight * s.tvd * 0.05194806) ∧
    (∀ s : Sec, (calculateSoloMapsBurstLoadDF s).burst_load =
      burst_load_spec s.mud_weight s.backup_mud s.tvd s.frac_init_pressure
        ((calculateSoloMapsBurstLoadDF s).maps)) ∧
    (∀ s : Sec, (calculateSoloMapsBurstLoadDF s).burst_df =
      (if 0 < (calculateSoloMapsBurstLoadDF s).burst_load
        then DF.val (s.burst_strength / (calculateSoloMapsBurstLoadDF s).burst_load)
        else DF.inf)) ∧
    (|(calculateSoloMapsBurstLoadDF ⟨15, 8.6, 10000, 8000, 0.1, 10000⟩).maps
        - 7792.21| ≤ 0.01 ∧
      (calculateSoloMapsBurstLoadDF ⟨15, 8.6, 10000, 8000, 0.1, 10000⟩).burst_df ≠ DF.inf) := by
  refine ⟨fun s => rfl, fun s => ?_, fun s => rfl, ?_⟩
  · simp [calculateSoloMapsBurstLoadDF, burst_load_spec]
  · norm_num [calculateSoloMapsBurstLoadDF, abs_le]
    simp

/-- C1 counterexample: the claim says a design factor is +∞ exactly when its
load is 0 and finite for any nonzero load, but the burst design factor uses
the guard `burst_load > 0`: on a section with `mud_weight 0`, `backup_mud
10`, `tvd 1000`, `frac_init_pressure 0`, `int_gradient 0`, `burst_strength
100` the burst load is −519.4806 (nonzero) and the design factor is still
the infinity sentinel. -/
theorem burst_df_inf_at_nonzero_load :
    (calculateSoloMapsBurstLoadDF ⟨0, 10, 1000, 0, 0, 100⟩).burst_load ≠ 0 ∧
    (calculateSoloMapsBurstLoadDF ⟨0, 10, 1000, 0, 0, 100⟩).burst_df = DF.inf := by
  constructor
  · norm_num [calculateSoloMapsBurstLoadDF]
  · norm_num [calculateSoloMapsBurstLoadDF]

/-- A `load > 0`-guarded design-factor ratio is the infinity sentinel
precisely on non-positive loads. -/
lemma ite_pos_df_eq_inf_iff {strength load : ℚ} :
    (if 0 < load then DF.val (strength / load) else DF.inf) = DF.inf ↔ load ≤ 0 := by
  split
  case isTrue h =>
    exact ⟨fun hh => DF.noConfusion hh, fun hh => absurd h (not_lt.mpr hh)⟩
  case isFalse h =>
    rw [not_lt] at h
    simp [h]

/-- C1 amended: `collapse_df` and `tension_df` equal the infinity sentinel
exactly when their loads are 0 (any nonzero load, negative included, gives
the finite ratio), while `burst_df` — on the solo path and on the
adjacent-pair path alike — equals the infinity sentinel exactly when
`burst_load ≤ 0`, so it is finite exactly for strictly positive burst
loads. -/
theorem design_factor_inf_iff :
    (∀ c : Casing, calculate_collapse_df c = DF.inf ↔ calculate_collapse_load c = 0) ∧
    (∀ (c : Casing) (u : UnivParams),
      calculate_tension_df c u = DF.inf ↔ calculate_tension_buoyed c u = 0) ∧
    (∀ s : Sec, (calculateSoloMapsBurstLoadDF s).burst_df = DF.inf ↔
      (calculateSoloMapsBurstLoadDF s).burst_load ≤ 0) ∧
    (∀ sec1 sec2 : Sec, (interSectionMapsBurstLoadDF sec1 sec2).burst_df = DF.inf ↔
      (interSectionMapsBurstLoadDF sec1 sec2).burst_load ≤ 0) := by
  refine ⟨fun c => ?_, fun c u => ?_, fun s => ite_pos_df_eq_inf_iff,
    fun sec1 sec2 => ite_pos_df_eq_inf_iff⟩
  · unfold calculate_collapse_df
    split <;> simp_all
  · unfold calculate_tension_df
    split <;> simp_all

/-- C2 counterexample: the claim says every design factor with a zero or
negative load is the infinity sentinel, but the collapse design factor uses
the guard `collapse_load != 0`: on a casing with `bottom 1000` and
`mud_weight −10` the collapse load is −520 (negative) and the collapse
design factor is the finite ratio 5200 / (−520) = −10, not the sentinel. -/
theorem collapse_df_finite_at_negative_load :
    calculate_collapse_load ⟨0, 0, 0, -10, 0, 0, 0, 1000, 0, 0, 0, 0, 0, 0, 0, 5200, 0⟩ < 0 ∧
    calculate_collapse_df ⟨0, 0, 0, -10, 0, 0, 0, 1000, 0, 0, 0, 0, 0, 0, 0, 5200, 0⟩ ≠ DF.inf := by
  constructor
  · norm_num [calculate_collapse_load]
  · norm_num [calculate_collapse_df, calculate_collapse_load]
    simp

/-- C2 amended: with `load > 0` every design factor is the finite ratio
`strength / load`, and with `load = 0` every design factor is the infinity
sentinel; at strictly negative loads the behaviours split — `burst_df`
returns the sentinel but `collapse_df` and `tension_df` return the finite
(negative) ratio.  The guard shapes below state each computation exactly;
none of the three can raise (all are total functions). -/
theorem design_factor_guard_forms :
    (∀ c : Casing, calculate_collapse_df c =
      (if calculate_collapse_load c = 0 then DF.inf
        else DF.val (c.collapse_pressure / calculate_collapse_load c))) ∧
    (∀ (c : Casing) (u : UnivParams), calculate_tension_df c u =
      (if calculate_tension_buoyed c u = 0 then DF.inf
        else DF.val ((c.tension_strength : ℝ) / calculate_tension_buoyed c u))) ∧
    (∀ s : Sec, (calculateSoloMapsBurstLoadDF s).burst_df =
      (if 0 < (calculateSoloMapsBurstLoadDF s).burst_load
        then DF.val (s.burst_strength / (calculateSoloMapsBurstLoadDF s).burst_load)
        else DF.inf)) ∧
    (∀ sec1 sec2 : Sec, (interSectionMapsBurstLoadDF sec1 sec2).burst_df =
      (if 0 < (interSectionMapsBurstLoadDF sec1 sec2).burst_load
        then DF.val (sec1.burst_strength / (interSectionMapsBurstLoadDF sec1 sec2).burst_load)
        else DF.inf)) := by
  refine ⟨fun c => ?_, fun c u => ?_, fun s => rfl, fun sec1 sec2 => rfl⟩
  · by_cases h : calculate_collapse_load c = 0 <;> simp [calculate_collapse_df, h]
  · by_cases h : calculate_tension_buoyed c u = 0 <;> simp [calculate_tension_df, h]

/-- C8: `tension_air` is `csg_weight × set_depth / 1000` with
`abs(set_depth − tol)` replacing `set_depth` exactly at
`set_depth = max_md_depth`; `tension_buoyed` is
`(weight_term − buoyancy_term × steel_area) / 1000` with
`steel_area = π/4 × (od² − id²)`, the buoyancy term
`0.05194806 × mud_weight × tvd` (with `abs(tvd − max_tvd_depth)` at
`set_depth = max_md_depth`) and the weight term following the same
exception rule as `tension_air` (it is 1000 times the air tension). -/
theorem tension_air_and_buoyed_formulas :
    (∀ (c : Casing) (u : UnivParams),
      calculate_tension_air c u = tension_air_spec c u) ∧
    (∀ (c : Casing) (u : UnivParams),
      calculate_tension_buoyed c u = tension_buoyed_spec c u) ∧
    (∀ (c : Casing) (u : UnivParams),
      weight_term_spec c u = 1000 * (calculate_tension_air c u : ℝ)) := by
  refine ⟨fun c u => ?_, fun c u => ?_, fun c u => ?_⟩
  · by_cases h : c.bottom = u.max_md_depth <;>
      simp [calculate_tension_air, tension_air_spec, h]
  · by_cases h : c.bottom = u.max_md_depth <;>
      simp [calculate_tension_buoyed, tension_buoyed_spec, weight_term_spec,
        buoyancy_term_spec, steel_area_spec, h]
  · by_cases h : c.bottom = u.max_md_depth
    · simp only [calculate_tension_air, weight_term_spec, if_pos h]
      push_cast
      ring
    · simp only [calculate_tension_air, weight_term_spec, if_neg h]
      push_cast
      ring

/-- C10: the cement-height computation of `calculate_cement_height` divides
by `((hole_size × (1 + washout/100))² − od²) / 183.35`; it raises (returns
no value) exactly when `od > 0` and the washout-adjusted hole size squared
equals `od²` — in particular whenever `od > 0` and
`hole_size × (1 + washout/100) = od`, so the `od > 0` guard alone does not
make it total (witness `hole_size = od = 10`, `washout = 0`); the
zero-result branch is taken exactly on `od ≤ 0`, and on the non-raising
positive-`od` inputs the quotient formula is returned. -/
theorem cement_height_division_behavior :
    (∀ c : Casing, c.od ≤ 0 → calculate_cement_height c = some 0) ∧
    (∀ c : Casing, calculate_cement_height c = none ↔
      0 < c.od ∧ (c.hole_size * (1 + c.washout / 100)) ^ 2 - c.od ^ 2 = 0) ∧
    (∀ c : Casing, 0 < c.od → c.hole_size * (1 + c.washout / 100) = c.od →
      calculate_cement_height c = none) ∧
    (∀ c : Casing, 0 < c.od →
      (c.hole_size * (1 + c.washout / 100)) ^ 2 - c.od ^ 2 ≠ 0 →
      calculate_cement_height c =
        some (1 / (((c.hole_size * (1 + c.washout / 100)) ^ 2 - c.od ^ 2) / 183.35) *
          c.cement_cu_ft)) := by
  refine ⟨fun c h => ?_, fun c => ?_, fun c h1 h2 => ?_, fun c h1 h2 => ?_⟩
  · simp [calculate_cement_height, not_lt.mpr h]
  · constructor
    · intro h
      simp only [calculate_cement_height] at h
      by_cases h1 : 0 < c.od
      · refine ⟨h1, ?_⟩
        rw [if_pos h1] at h
        by_cases h2 : (c.hole_size * (1 + c.washout / 100)) ^ 2 - c.od ^ 2 = 0
        · exact h2
        · rw [if_neg ?_] at h
          · exact Option.noConfusion h
          · exact div_ne_zero h2 (by norm_num)
      · rw [if_neg h1] at h
        exact Option.noConfusion h
    · rintro ⟨h1, h2⟩
      simp only [calculate_cement_height]
      rw [if_pos h1, if_pos (by rw [h2]; norm_num)]
  · simp only [calculate_cement_height]
    rw [if_pos h1, if_pos (by rw [h2]; ring_nf)]
  · simp only [calculate_cement_height]
    rw [if_pos h1, if_neg (div_ne_zero h2 (by norm_num))]

/-- C10 witness: on the casing with `hole_size = 10`, `washout = 0`,
`od = 10` the guard `od > 0` holds and yet the computation raises. -/
theorem cement_height_division_behavior_witness :
    (0 : ℚ) < 10 ∧
    calculate_cement_height ⟨0, 0, 0, 0, 0, 5, 10, 0, 0, 0, 10, 0, 0, 0, 0, 0, 0⟩ = none := by
  refine ⟨by norm_num, ?_⟩
  exact cement_height_division_behavior.2.2.1
    ⟨0, 0, 0, 0, 0, 5, 10, 0, 0, 0, 10, 0, 0, 0, 0, 0, 0⟩ (by norm_num) (by norm_num)

/-- C3 counterexample: the claim says completion holds if and only if the
last (deepest) section bottom equals the well bottom, but the flag is
sticky — on the well `top 0`, `bottom 1000` the calls
`addSection(bottom=1000)`, `addSection(bottom=1500)` leave `complete` true
while the last section bottom is 1500 ≠ 1000. -/
theorem top_down_complete_not_iff :
    (buildTD ⟨0, 1000⟩ [⟨1000⟩, ⟨1500⟩]).complete = true ∧
    lastBottomTD (buildTD ⟨0, 1000⟩ [⟨1000⟩, ⟨1500⟩]).sections = some 1500 := by
  constructor <;> rfl

/-- C3 amended: one top-down insertion inserts exactly one new section
whose top is the bottom of the current last section (the well top when no
section is staged) and whose bottom is the supplied `bottom`; afterwards
the sections are sorted ascending by top (re-indexed 0..n−1, i.e. the list
order); and the completion flag after the insertion is the previous flag
OR-ed with the test that the new last section bottom equals the well
bottom — it becomes true when the chain reaches the well bottom and then
stays true forever, rather than tracking the equality as an iff. -/
theorem add_section_top_down_behavior :
    ∀ (w : Well) (s : TDState) (r : RawTD),
      List.Perm (add_section_top_down_new w s r).sections (newTDSec w s r :: s.sections) ∧
      List.Sorted tdByTop (add_section_top_down_new w s r).sections ∧
      (newTDSec w s r).top = ((s.sections.getLast?).map TDSec.bottom).getD w.top ∧
      (newTDSec w s r).bottom = r.bottom ∧
      (add_section_top_down_new w s r).complete =
        (s.complete ||
          decide (lastBottomTD (add_section_top_down_new w s r).sections = some w.bottom)) := by
  intro w s r
  refine ⟨?_, ?_, ?_, rfl, rfl⟩
  · exact (List.perm_insertionSort tdByTop _).trans (List.perm_append_singleton _ _)
  · exact List.sorted_insertionSort tdByTop _
  · rcases h : s.sections.getLast? with _ | prev <;> simp [newTDSec, h]

/-- C4 counterexample: on the well `top 0`, `bottom 1000`, after
`addSection(bottom=1000)` and `addSection(bottom=2000, length=100,
top=300)` the staged sections are `[(top 300, bottom 2000), (top 0,
bottom 1000)]` and `complete` is true.  This contradicts the claim three
ways: the second section keeps its caller-supplied bottom 2000 instead of
the derived bottom 0 (the md-top-else-top of the first section), its top
is the explicitly supplied 300 rather than the length-derived
`max(0 − 100, 0) = 0`, and `complete` is true although the index-0 section
top 300 differs from the well top 0 (the flag was set by the first call
and is sticky). -/
theorem bottom_up_divergences :
    (buildBU ⟨0, 1000⟩ [⟨1000, none, none, none, none⟩,
        ⟨2000, some 100, some 300, none, none⟩]).complete = true ∧
    (buildBU ⟨0, 1000⟩ [⟨1000, none, none, none, none⟩,
        ⟨2000, some 100, some 300, none, none⟩]).sections.map
      (fun sec => (sec.top, sec.bottom)) = [(300, 2000), (0, 1000)] ∧
    headTopBU (buildBU ⟨0, 1000⟩ [⟨1000, none, none, none, none⟩,
        ⟨2000, some 100, some 300, none, none⟩]).sections ≠ some 0 := by
  refine ⟨rfl, rfl, ?_⟩
  intro h
  simp [buildBU, add_section_bottom_up_new, newBUSec, derivedBottomBU, headTopBU,
    buByKeyDesc, buSortKey] at h
  norm_num at h

/-- C4 amended: one bottom-up insertion inserts exactly one new section;
the derived positioning bottom (well bottom for a first section, else the
md-top-else-top of the current index-0 section) only feeds the
length-based top computation, while the stored bottom is always the
caller-supplied `bottom`; the stored top is the explicitly supplied `top`
when present (it overrides even a supplied `length`), else
`max(derived_bottom − length, well top)` when a length is supplied, else
the well top; afterwards the sections are sorted descending by
md-bottom-else-bottom; and the completion flag is the previous flag OR-ed
with the test that the index-0 section top equals the well top (sticky,
not an iff). -/
theorem add_section_bottom_up_behavior :
    ∀ (w : Well) (s : BUState) (r : RawBU),
      List.Perm (add_section_bottom_up_new w s r).sections (newBUSec w s r :: s.sections) ∧
      List.Sorted buByKeyDesc (add_section_bottom_up_new w s r).sections ∧
      (newBUSec w s r).bottom = r.bottom ∧
      (newBUSec w s r).md_top = r.md_top ∧
      (newBUSec w s r).md_bottom = r.md_bottom ∧
      (newBUSec w s r).top = (r.top).getD
        ((r.length).elim w.top fun len => max (derivedBottomBU w s - len) w.top) ∧
      (add_section_bottom_up_new w s r).complete =
        (s.complete ||
          decide (headTopBU (add_section_bottom_up_new w s r).sections = some w.top)) := by
  intro w s r
  refine ⟨?_, ?_, rfl, rfl, rfl, ?_, rfl⟩
  · exact (List.perm_insertionSort buByKeyDesc _).trans (List.perm_append_singleton _ _)
  · exact List.sorted_insertionSort buByKeyDesc _
  · rcases ht : r.top with _ | t <;> rcases hl : r.length with _ | len <;>
      simp [newBUSec, ht, hl]

/-- A positional key never coincides with a label key. -/
lemma idx_beq_label (n : ℕ) (lab : String) : (SecKey.idx n == SecKey.label lab) = false :=
  beq_eq_false_iff_ne.mpr (by simp)

/-- No entry of a positional dictionary carries a label key. -/
lemma idxDict_any_label {V : Type} (vs : List V) (k : ℕ) (lab : String) :
    ((idxDict k vs).any fun p => p.1 == SecKey.label lab) = false := by
  induction vs generalizing k with
  | nil => rfl
  | cons v vs ih => simp [idxDict, idx_beq_label, ih]

/-- Invariant of the `create_variables` loop: starting from the positional
entries `k, k+1, ...` followed by the already re-keyed `done` part, a pass
over the remaining labels (pairwise distinct and absent from `done`) moves
every section, unchanged, behind `done` under its label, in order. -/
lemma create_variables_go {V : Type} :
    ∀ (labels : List String) (secs : List V) (k : ℕ) (done : List (SecKey × V)),
      labels.length = secs.length →
      labels.Nodup →
      (∀ lab ∈ labels, SecKey.label lab ∉ done.map Prod.fst) →
      (List.enumFrom k labels).foldl create_variables_step (idxDict k secs ++ done) =
        done ++ labelDict labels secs := by
  intro labels
  induction labels with
  | nil =>
    intro secs k done hlen _ _
    cases secs with
    | nil => simp [labelDict, idxDict]
    | cons v vs => simp at hlen
  | cons lab labs ih =>
    intro secs k done hlen hnd hdisj
    cases secs with
    | nil => simp at hlen
    | cons v vs =>
      have hcons : idxDict k (v :: vs) ++ done =
          (SecKey.idx k, v) :: (idxDict (k + 1) vs ++ done) := rfl
      have hget : dictGet (idxDict k (v :: vs) ++ done) (SecKey.idx k) = some v := by
        rw [hcons, dictGet, List.find?_cons_of_pos _ (by simp)]
        rfl
      have herase : dictErase (idxDict k (v :: vs) ++ done) (SecKey.idx k) =
          idxDict (k + 1) vs ++ done := by
        rw [hcons, dictErase, List.eraseP_cons_of_pos (by simp)]
      have hany : ((idxDict (k + 1) vs ++ done).any fun p => p.1 == SecKey.label lab) = false := by
        rw [List.any_append, idxDict_any_label, Bool.false_or, List.any_eq_false]
        intro p hp
        simp only [beq_iff_eq]
        intro hkey
        exact hdisj lab (List.mem_cons_self lab labs) (hkey ▸ List.mem_map_of_mem Prod.fst hp)
      have hstep : create_variables_step (idxDict k (v :: vs) ++ done) (k, lab) =
          idxDict (k + 1) vs ++ (done ++ [(SecKey.label lab, v)]) := by
        simp only [create_variables_step, hget, herase]
        unfold dictSet
        rw [if_neg (by rw [hany]; exact Bool.false_ne_true)]
        rw [List.append_assoc]
      have hdisj2 : ∀ l ∈ labs,
          SecKey.label l ∉ (done ++ [(SecKey.label lab, v)]).map Prod.fst := by
        intro l hl
        rw [List.map_append, List.mem_append]
        rintro (h1 | h2)
        · exact hdisj l (List.mem_cons_of_mem lab hl) h1
        · simp only [List.map_cons, List.map_nil, List.mem_singleton] at h2
          have : l = lab := by simpa using h2
          exact (List.nodup_cons.mp hnd).1 (this ▸ hl)
      have hlen2 : labs.length = vs.length := by simpa using hlen
      have hrec := ih vs (k + 1) (done ++ [(SecKey.label lab, v)]) hlen2
        (List.nodup_cons.mp hnd).2 hdisj2
      calc (List.enumFrom k (lab :: labs)).foldl create_variables_step
            (idxDict k (v :: vs) ++ done)
          = (List.enumFrom (k + 1) labs).foldl create_variables_step
            (create_variables_step (idxDict k (v :: vs) ++ done) (k, lab)) := rfl
        _ = (List.enumFrom (k + 1) labs).foldl create_variables_step
            (idxDict (k + 1) vs ++ (done ++ [(SecKey.label lab, v)])) := by rw [hstep]
        _ = (done ++ [(SecKey.label lab, v)]) ++ labelDict labs vs := hrec
        _ = done ++ labelDict (lab :: labs) (v :: vs) := by
            rw [List.append_assoc]; rfl

/-- C9 counterexample: with the duplicate label list `["L", "L"]` over two
sections (values 1 and 2), re-keying collapses the dictionary to the
single entry `("L", 2)`: the field values of the first section are lost,
so re-keying does not leave every field value of every section unchanged
for every sequence of sections with their labels. -/
theorem create_variables_duplicate_label_loses_section :
    create_variables ["L", "L"] (idxDict 0 [(1 : ℚ), 2]) = [(SecKey.label "L", 2)] ∧
    (1 : ℚ) ∉ (create_variables ["L", "L"] (idxDict 0 [(1 : ℚ), 2])).map Prod.snd := by
  constructor <;> decide

/-- C9 amended: provided the casing-type labels are pairwise distinct (one
per section, as many as there are sections), re-keying the positional
dictionary produces exactly the label-keyed dictionary with every value
unchanged and the labels in the original positional order. -/
theorem create_variables_relabel {V : Type} (secs : List V) (labels : List String)
    (hlen : labels.length = secs.length) (hnd : labels.Nodup) :
    create_variables labels (idxDict 0 secs) = labelDict labels secs := by
  have h := create_variables_go labels secs 0 [] hlen hnd (by simp)
  simp only [create_variables]
  rw [show labels.enum = List.enumFrom 0 labels from rfl]
  simpa using h

/-- C9 witness: the amended re-keying theorem applied to two concrete
sections labelled `surface` and `production`. -/
theorem create_variables_relabel_witness :
    (["surface", "production"] : List String).Nodup ∧
    create_variables ["surface", "production"] (idxDict 0 [(1 : ℚ), 2]) =
      labelDict ["surface", "production"] [(1 : ℚ), 2] :=
  ⟨by decide, create_variables_relabel [(1 : ℚ), 2] ["surface", "production"] rfl (by decide)⟩

end CasingCalc
